import Mathlib

/-!
Verification of the `minimal_unsafe_block` clippy lint
(`clippy_lints/src/minimal_unsafe_block.rs`).

The lint walks every HIR expression; on a block expression whose check mode
is an unsafe block it dispatches on the `UnsafeSource`: compiler-generated
blocks are skipped, user-provided ones are classified by
`check_user_provided_unsafe_block`, which may emit up to two diagnostics via
`span_lint` — one for leading statements and one for the tail expression.

The embedding below mirrors the HIR data the lint inspects.  Semantic
queries made through `LateContext`/`TyCtxt` (`qpath_res`,
`type_dependent_def_id`, `fn_sig(..).safety`) are modelled by attaching the
query's answer to the node it is asked about, and by a context `Ctx` mapping
`DefId`s to the declared safety of the corresponding function signature.
Diagnostics are modelled as a list of `Finding`s in emission order together
with their message texts.
-/

set_option autoImplicit false

namespace Clippy

/-- A block statement.  The lint only ever asks `block.stmts.is_empty()` and
never inspects a statement's contents, so statements are modelled as an
opaque single-constructor type. -/
inductive Stmt where
  | mk
deriving DecidableEq

/-- `rustc_hir::hir::Safety` as it appears on a function signature:
the declared safety qualifier of a callable. -/
inductive Safety where
  | Safe
  | Unsafe
deriving DecidableEq

/-- `Safety::is_safe` from `rustc_middle::ty::inherent::Safety`. -/
def Safety.is_safe : Safety → Bool
  | .Safe => true
  | .Unsafe => false

/-- `rustc_hir::UnsafeSource`: whether the unsafe marker on a block was
written by the user or synthesized by the compiler during desugaring. -/
inductive UnsafeSource where
  | CompilerGenerated
  | UserProvided
deriving DecidableEq

/-- `rustc_hir::BlockCheckMode`. -/
inductive BlockCheckMode where
  | DefaultBlock
  | UnsafeBlock (source : UnsafeSource)
deriving DecidableEq

/-- A `DefId`: the identity of a definition, resolved by the host. -/
abbrev DefId := Nat

/-- The fragment of `rustc_hir::def::DefKind` distinguished by
`is_call_safe`: the lint only accepts `DefKind::Fn`; constructors,
associated functions reached as paths, and every other kind fall through to
the catch-all arm. -/
inductive DefKind where
  | Fn
  | AssocFn
  | Ctor
  | OtherDefKind
deriving DecidableEq

/-- The fragment of `rustc_hir::def::Res` returned by
`typeck.qpath_res(&qpath, hir_id)`: either a resolved definition with its
kind, or any non-`Def` resolution (local, primitive type, error, …). -/
inductive Res where
  | Def (kind : DefKind) (def_id : DefId)
  | OtherRes
deriving DecidableEq

/-- The reasons the lint can report, one per `span_lint` message in the
source. -/
inductive Finding where
  | StatementsCovered
  | CoversArray
  | CoversBlock
  | CoversClosure
  | CoversIf
  | CoversLoop
  | CoversTuple
  | CoversSafeCall
  | CoversSafeMethodCall
deriving DecidableEq

/-- The message fragment each finding carries, exactly as written in
`minimal_unsafe_block.rs`. -/
def Finding.msg : Finding → String
  | .StatementsCovered => "it covers statements"
  | .CoversArray => "it covers unnecessarily an array"
  | .CoversBlock => "it covers unnecessarily a block"
  | .CoversClosure => "it covers unnecessarily a closure"
  | .CoversIf => "it covers unnecessarily an `if` block"
  | .CoversLoop => "it covers unnecessarily a `loop` block"
  | .CoversTuple => "it covers unnecessarily a tuple"
  | .CoversSafeCall => "it covers unnecessarily a safe call"
  | .CoversSafeMethodCall => "it covers unnecessarily a safe method call"

/-- The full diagnostic text passed to `span_lint` for a finding. -/
def Finding.lintMessage (f : Finding) : String :=
  "this `unsafe` block is not minimal as " ++ f.msg

/-- The fragment of `rustc_hir::Expr`/`ExprKind` the lint dispatches on.

Payloads the lint never reads are kept only where they are needed for the
tree to be a tree (sub-expressions); resolved semantic information is
attached to the node the query is made about:
* `Path` carries the answer of `typeck.qpath_res` for its `QPath`;
* `MethodCall` carries the answer of `typeck.type_dependent_def_id` for its
  own `HirId` (`none` when resolution finds no definition).
`Other` stands for every remaining `ExprKind` variant (literals aside, which
get their own constructor as a convenient concrete inhabitant): all of them
reach the classifier's catch-all arm. -/
inductive Expr where
  | Array (elems : List Expr)
  | Block (stmts : List Stmt) (tail : Option Expr) (rules : BlockCheckMode)
  | Closure (body : Expr)
  | If (cond : Expr) (thenB : Expr) (elseB : Option Expr)
  | Loop (body : Expr)
  | Tup (elems : List Expr)
  | Call (callee : Expr) (args : List Expr)
  | MethodCall (typeDepDefId : Option DefId) (receiver : Expr) (args : List Expr)
  | Path (res : Res)
  | Lit (n : Nat)
  | Other

/-- `rustc_hir::Block`: the fields the lint reads (`stmts`, `expr`,
`rules`). -/
structure Block where
  stmts : List Stmt
  expr : Option Expr
  rules : BlockCheckMode

/-- The semantic context: the part of `LateContext`/`TyCtxt` the lint
queries.  `fnSig d` models `tcx.fn_sig(d).instantiate_identity()
.skip_binder().safety`, the declared safety of definition `d`. -/
structure Ctx where
  fnSig : DefId → Safety

/-- `is_fn_safe`: looks up the declared safety of `def_id`'s signature. -/
def is_fn_safe (tcx : Ctx) (def_id : DefId) : Bool :=
  (tcx.fnSig def_id).is_safe

/-- `is_call_safe`: the safety oracle for a `Call`'s callee expression.
A path resolving to `Res::Def(DefKind::Fn, def_id)` answers per the
function's declared safety; a closure literal is always safe; every other
shape (unresolved paths, non-`Fn` definitions, non-path callees) answers
`false`. -/
def is_call_safe (cx : Ctx) (call : Expr) : Bool :=
  match call with
  | .Path qres =>
    match qres with
    | .Def .Fn def_id => is_fn_safe cx def_id
    | _ => false
  | .Closure _ => true
  | _ => false

/-- `check_user_provided_unsafe_block_expr`: classifies the block's tail
expression, returning the finding to report, if any.  Returns `none` when
the block has no tail expression (the `block.expr?` early return).  The
catch-all arm (which in the source only logs to stderr) returns `none`. -/
def check_user_provided_unsafe_block_expr (cx : Ctx) (block : Block) :
    Option Finding :=
  match block.expr with
  | none => none
  | some e =>
    match e with
    | .Array _ => some .CoversArray
    | .Block _ _ _ => some .CoversBlock
    | .Closure _ => some .CoversClosure
    | .If _ _ _ => some .CoversIf
    | .Loop _ => some .CoversLoop
    | .Tup _ => some .CoversTuple
    | .Call callee _ =>
      if is_call_safe cx callee then some .CoversSafeCall else none
    | .MethodCall typeDepDefId _ _ =>
      match typeDepDefId with
      | some def_id =>
        if is_fn_safe cx def_id then some .CoversSafeMethodCall else none
      | none => none
    | _ => none

/-- `check_user_provided_unsafe_block`: the classifier for a user-provided
unsafe block.  The result is the list of findings in the order the source
calls `span_lint`: first the statements check, then the tail-expression
check (guarded by `block.expr.is_some()` as in the source). -/
def check_user_provided_unsafe_block (cx : Ctx) (block : Block) :
    List Finding :=
  (if block.stmts.isEmpty then [] else [Finding.StatementsCovered]) ++
  (if block.expr.isSome then
    match check_user_provided_unsafe_block_expr cx block with
    | some f => [f]
    | none => []
  else [])

/-- `MinimalUnsafeBlock::check_expr`: the per-expression entry point of the
lint pass.  Only a block expression whose rules are
`UnsafeBlock(UserProvided)` is handed to the classifier; compiler-generated
unsafe blocks, default blocks and all non-block expressions produce
nothing. -/
def MinimalUnsafeBlock.check_expr (cx : Ctx) (e : Expr) : List Finding :=
  match e with
  | .Block stmts tailExpr rules =>
    match rules with
    | .UnsafeBlock .CompilerGenerated => []
    | .UnsafeBlock .UserProvided =>
      check_user_provided_unsafe_block cx ⟨stmts, tailExpr, rules⟩
    | .DefaultBlock => []
  | _ => []

/-- A fixed context for concrete evaluations: every definition is declared
with the `Safe` qualifier except `DefId` 1, which is `Unsafe`. -/
def ctx0 : Ctx :=
  ⟨fun d => if d = 1 then Safety.Unsafe else Safety.Safe⟩

/-- The user-provided unsafe-block check mode, the only one the classifier
receives. -/
def userRules : BlockCheckMode :=
  BlockCheckMode.UnsafeBlock UnsafeSource.UserProvided

/-- The tail-expression check never produces the statements finding: every
arm of `check_user_provided_unsafe_block_expr` returns a `Covers…` finding
or `none`. -/
theorem tail_finding_ne_statements (cx : Ctx) (b : Block) :
    check_user_provided_unsafe_block_expr cx b ≠
      some Finding.StatementsCovered := by
  rcases b with ⟨s, e, r⟩
  match e with
  | none => simp [check_user_provided_unsafe_block_expr]
  | some e0 =>
    cases e0 <;> simp only [check_user_provided_unsafe_block_expr] <;> simp
    case MethodCall d _ _ =>
      match d with
      | none => simp
      | some def_id =>
        by_cases hs : is_fn_safe cx def_id <;> simp [hs]

/-- The classifier's output decomposes as statements part followed by the
tail part, where the tail part only depends on the block's tail
expression. -/
theorem check_decomp (cx : Ctx) (s : List Stmt) (t : Option Expr)
    (r : BlockCheckMode) :
    check_user_provided_unsafe_block cx ⟨s, t, r⟩ =
      (if s.isEmpty then [] else [Finding.StatementsCovered]) ++
        (check_user_provided_unsafe_block_expr cx ⟨s, t, r⟩).toList := by
  rcases t with _ | e
  · simp [check_user_provided_unsafe_block, check_user_provided_unsafe_block_expr]
  · simp only [check_user_provided_unsafe_block, Option.isSome_some, if_true]
    cases h : check_user_provided_unsafe_block_expr cx ⟨s, some e, r⟩ <;> simp

/-- C9: the empty user-provided unsafe block — no statements and no tail
expression — produces zero findings. -/
theorem c9_empty_block_no_findings (cx : Ctx) :
    MinimalUnsafeBlock.check_expr cx (Expr.Block [] none userRules) = [] := rfl

/-- C3: for a user-provided unsafe block with no statements whose tail
expression is an array literal, nested block, closure literal, conditional,
loop or tuple literal, exactly the corresponding always-non-minimal finding
is emitted and nothing else. -/
theorem c3_always_nonminimal_tail_findings (cx : Ctx) (es ts : List Expr)
    (s : List Stmt) (t : Option Expr) (r : BlockCheckMode)
    (body cond thenB lbody : Expr) (elseB : Option Expr) :
    MinimalUnsafeBlock.check_expr cx
        (Expr.Block [] (some (Expr.Array es)) userRules) =
      [Finding.CoversArray] ∧
    MinimalUnsafeBlock.check_expr cx
        (Expr.Block [] (some (Expr.Block s t r)) userRules) =
      [Finding.CoversBlock] ∧
    MinimalUnsafeBlock.check_expr cx
        (Expr.Block [] (some (Expr.Closure body)) userRules) =
      [Finding.CoversClosure] ∧
    MinimalUnsafeBlock.check_expr cx
        (Expr.Block [] (some (Expr.If cond thenB elseB)) userRules) =
      [Finding.CoversIf] ∧
    MinimalUnsafeBlock.check_expr cx
        (Expr.Block [] (some (Expr.Loop lbody)) userRules) =
      [Finding.CoversLoop] ∧
    MinimalUnsafeBlock.check_expr cx
        (Expr.Block [] (some (Expr.Tup ts)) userRules) =
      [Finding.CoversTuple] :=
  ⟨rfl, rfl, rfl, rfl, rfl, rfl⟩

/-- C7: a user-provided unsafe block with no statements whose tail
expression has a kind outside the handled set (a bare path, a literal, or
any other unhandled kind) yields no finding: the catch-all arm maps to
`none`, never to a diagnostic, and classification is a total function so it
cannot abort the traversal. -/
theorem c7_unhandled_tail_conservative (cx : Ctx) (res : Res) (n : Nat) :
    MinimalUnsafeBlock.check_expr cx
        (Expr.Block [] (some (Expr.Path res)) userRules) = [] ∧
    MinimalUnsafeBlock.check_expr cx
        (Expr.Block [] (some (Expr.Lit n)) userRules) = [] ∧
    MinimalUnsafeBlock.check_expr cx
        (Expr.Block [] (some Expr.Other) userRules) = [] ∧
    check_user_provided_unsafe_block_expr cx ⟨[], some Expr.Other, userRules⟩ =
      none :=
  ⟨rfl, rfl, rfl, rfl⟩

/-- C6: a block whose unsafe marker is compiler-synthesized produces zero
findings whatever its statements and tail expression are; more generally the
lint pass produces findings only for block expressions whose rules are
`UnsafeBlock(UserProvided)`, and on those it returns exactly the
classifier's output. -/
theorem c6_only_user_blocks_classified (cx : Ctx) (s : List Stmt)
    (t : Option Expr) (es ts args : List Expr) (body cond thenB lbody callee recv : Expr)
    (elseB : Option Expr) (d : Option DefId) (res : Res) (n : Nat) :
    MinimalUnsafeBlock.check_expr cx
        (Expr.Block s t (BlockCheckMode.UnsafeBlock UnsafeSource.CompilerGenerated)) = [] ∧
    MinimalUnsafeBlock.check_expr cx
        (Expr.Block s t BlockCheckMode.DefaultBlock) = [] ∧
    MinimalUnsafeBlock.check_expr cx (Expr.Block s t userRules) =
      check_user_provided_unsafe_block cx ⟨s, t, userRules⟩ ∧
    MinimalUnsafeBlock.check_expr cx (Expr.Array es) = [] ∧
    MinimalUnsafeBlock.check_expr cx (Expr.Closure body) = [] ∧
    MinimalUnsafeBlock.check_expr cx (Expr.If cond thenB elseB) = [] ∧
    MinimalUnsafeBlock.check_expr cx (Expr.Loop lbody) = [] ∧
    MinimalUnsafeBlock.check_expr cx (Expr.Tup ts) = [] ∧
    MinimalUnsafeBlock.check_expr cx (Expr.Call callee args) = [] ∧
    MinimalUnsafeBlock.check_expr cx (Expr.MethodCall d recv args) = [] ∧
    MinimalUnsafeBlock.check_expr cx (Expr.Path res) = [] ∧
    MinimalUnsafeBlock.check_expr cx (Expr.Lit n) = [] ∧
    MinimalUnsafeBlock.check_expr cx Expr.Other = [] :=
  ⟨rfl, rfl, rfl, rfl, rfl, rfl, rfl, rfl, rfl, rfl, rfl, rfl, rfl⟩

/-- C4: for a user-provided unsafe block with no statements whose tail is a
call: a callee path resolving to a function definition yields
`CoversSafeCall` exactly when that function's declared safety is `Safe`; a
closure-literal callee is judged safe by the oracle and yields
`CoversSafeCall`; an unresolvable callee (a path with a non-`Def`
resolution, or a non-path non-closure callee shape) yields no finding. -/
theorem c4_call_safety_oracle (cx : Ctx) (d : DefId) (body : Expr)
    (args : List Expr) (n : Nat) :
    MinimalUnsafeBlock.check_expr cx
        (Expr.Block []
          (some (Expr.Call (Expr.Path (Res.Def DefKind.Fn d)) args)) userRules) =
      (if cx.fnSig d = Safety.Safe then [Finding.CoversSafeCall] else []) ∧
    is_call_safe cx (Expr.Closure body) = true ∧
    MinimalUnsafeBlock.check_expr cx
        (Expr.Block [] (some (Expr.Call (Expr.Closure body) args)) userRules) =
      [Finding.CoversSafeCall] ∧
    MinimalUnsafeBlock.check_expr cx
        (Expr.Block [] (some (Expr.Call (Expr.Path Res.OtherRes) args)) userRules) =
      [] ∧
    MinimalUnsafeBlock.check_expr cx
        (Expr.Block [] (some (Expr.Call (Expr.Lit n) args)) userRules) = [] := by
  refine ⟨?_, rfl, rfl, rfl, rfl⟩
  cases h : cx.fnSig d <;>
    simp [MinimalUnsafeBlock.check_expr, check_user_provided_unsafe_block,
      check_user_provided_unsafe_block_expr, is_call_safe, is_fn_safe, h,
      Safety.is_safe, userRules]

/-- C5: for a user-provided unsafe block with no statements whose tail is a
method call: when type-dependent resolution yields a definition,
`CoversSafeMethodCall` is emitted exactly when that definition's declared
safety is `Safe`; when resolution yields no definition, no finding is
emitted. -/
theorem c5_method_call_safety_oracle (cx : Ctx) (d : DefId) (recv : Expr)
    (args : List Expr) :
    MinimalUnsafeBlock.check_expr cx
        (Expr.Block [] (some (Expr.MethodCall (some d) recv args)) userRules) =
      (if cx.fnSig d = Safety.Safe then [Finding.CoversSafeMethodCall] else []) ∧
    MinimalUnsafeBlock.check_expr cx
        (Expr.Block [] (some (Expr.MethodCall none recv args)) userRules) =
      [] := by
  refine ⟨?_, rfl⟩
  cases h : cx.fnSig d <;>
    simp [MinimalUnsafeBlock.check_expr, check_user_provided_unsafe_block,
      check_user_provided_unsafe_block_expr, is_fn_safe, h,
      Safety.is_safe, userRules]

/-- C10: a call whose callee is a path resolving to a definition that is
not a plain function — a tuple-struct or enum-variant constructor, an
associated function reached as a path, or any other definition kind — is
treated as not safe by the oracle, so the block gets no finding, whatever
safety the context declares for that definition. -/
theorem c10_non_fn_path_call_no_finding (cx : Ctx) (d : DefId)
    (args : List Expr) :
    is_call_safe cx (Expr.Path (Res.Def DefKind.AssocFn d)) = false ∧
    is_call_safe cx (Expr.Path (Res.Def DefKind.Ctor d)) = false ∧
    is_call_safe cx (Expr.Path (Res.Def DefKind.OtherDefKind d)) = false ∧
    MinimalUnsafeBlock.check_expr cx
        (Expr.Block []
          (some (Expr.Call (Expr.Path (Res.Def DefKind.AssocFn d)) args))
          userRules) = [] ∧
    MinimalUnsafeBlock.check_expr cx
        (Expr.Block []
          (some (Expr.Call (Expr.Path (Res.Def DefKind.Ctor d)) args))
          userRules) = [] ∧
    MinimalUnsafeBlock.check_expr cx
        (Expr.Block []
          (some (Expr.Call (Expr.Path (Res.Def DefKind.OtherDefKind d)) args))
          userRules) = [] :=
  ⟨rfl, rfl, rfl, rfl, rfl, rfl⟩

/-- C2: `StatementsCovered` is emitted exactly once for a user-provided
unsafe block with at least one leading statement, whatever the tail
expression is, and never for a block with no statements; its diagnostic
text is the one the source passes to `span_lint`. -/
theorem c2_statements_covered_exactly_once (cx : Ctx) (b : Block) :
    (check_user_provided_unsafe_block cx b).count Finding.StatementsCovered =
      (if b.stmts.isEmpty then 0 else 1) ∧
    Finding.StatementsCovered.lintMessage =
      "this `unsafe` block is not minimal as it covers statements" := by
  refine ⟨?_, rfl⟩
  rcases b with ⟨s, t, r⟩
  rw [check_decomp]
  rcases h : check_user_provided_unsafe_block_expr cx ⟨s, t, r⟩ with _ | f
  · cases hs : s.isEmpty <;> simp [hs]
  · have hf : f ≠ Finding.StatementsCovered := by
      intro he
      exact tail_finding_ne_statements cx ⟨s, t, r⟩ (he ▸ h)
    cases hs : s.isEmpty <;>
      simp [hs, List.count_append, List.count_cons, hf]

/-- C8: for every user-provided unsafe block the classifier emits at most
two findings — at most one `StatementsCovered` and at most one
tail-expression finding — and its output decomposes into the statements
check followed by the tail-expression check, each computed independently of
the other. -/
theorem c8_at_most_two_findings (cx : Ctx) (b : Block) :
    (check_user_provided_unsafe_block cx b).length ≤ 2 ∧
    (check_user_provided_unsafe_block cx b).count Finding.StatementsCovered ≤ 1 ∧
    (check_user_provided_unsafe_block cx b).countP
      (fun f => decide (f ≠ Finding.StatementsCovered)) ≤ 1 ∧
    check_user_provided_unsafe_block cx b =
      (if b.stmts.isEmpty then [] else [Finding.StatementsCovered]) ++
        (check_user_provided_unsafe_block_expr cx b).toList := by
  rcases b with ⟨s, t, r⟩
  have hd := check_decomp cx s t r
  have hf : ∀ f, check_user_provided_unsafe_block_expr cx ⟨s, t, r⟩ = some f →
      f ≠ Finding.StatementsCovered := fun f he hc =>
    tail_finding_ne_statements cx ⟨s, t, r⟩ (hc ▸ he)
  refine ⟨?_, ?_, ?_, hd⟩ <;> rw [hd] <;>
    rcases h : check_user_provided_unsafe_block_expr cx ⟨s, t, r⟩ with _ | f <;>
    cases hs : s.isEmpty <;>
    simp [hs, List.count_append, List.count_cons, List.countP_append,
      List.countP_cons] <;>
    first
      | exact hf f h
      | (split <;> omega)

/-- C1 fails on the code: the tail-expression check is evaluated even when
the block has leading statements.  A user-provided unsafe block with one
statement and an array-literal tail receives both `StatementsCovered` and
the tail-expression finding `CoversArray`. -/
theorem c1_counterexample :
    MinimalUnsafeBlock.check_expr ctx0
        (Expr.Block [Stmt.mk] (some (Expr.Array [])) userRules) =
      [Finding.StatementsCovered, Finding.CoversArray] := rfl

/-- C1 amended: the tail-expression check is evaluated whenever the block
has a tail expression, regardless of its statements: a block's finding set
is the statements finding (when statements are present) followed by exactly
the findings of the same block with its statements removed, so a block with
statements can also carry a tail-expression finding. -/
theorem c1_tail_check_independent_of_statements (cx : Ctx) (s : List Stmt)
    (t : Option Expr) :
    MinimalUnsafeBlock.check_expr cx (Expr.Block s t userRules) =
      (if s.isEmpty then [] else [Finding.StatementsCovered]) ++
        MinimalUnsafeBlock.check_expr cx (Expr.Block [] t userRules) := rfl

end Clippy
